import Mathlib

/-!
Verification of the role-based SQL access-control gateway
(`role_guard.py` and `safe_db.py`).

Shallow embedding conventions:
* Python `str` is Lean `String` (ASCII view: Python's unicode-aware
  `\w`, `\b`, `.lower()`, `.upper()`, `.strip()` are modelled over the
  ASCII ranges, which is exact on every table name, keyword and role
  in the registry).
* The regex `\bW\b` with `re.IGNORECASE`, for a pattern `W` made of
  word characters, matches iff `W` occurs case-insensitively at a
  position with a non-word character (or the string edge) on each side;
  alternation picks the leftmost position and, there, the first listed
  alternative.
* Python exceptions (`ValueError` from `validate_role`) are `Except`.
* `time.perf_counter` durations are oracle parameters (in ℚ);
  Python sets of strings are duplicate-free lists; Python integers are
  `ℤ` (counts that only ever grow from 0 are `ℕ`).
-/

/-- A single-quote character, kept out of string literals. -/
def sQuote : String := String.singleton (Char.ofNat 39)

/-- Python regex `\w` over ASCII: letters, digits, underscore. -/
def isWordChar (c : Char) : Bool := c.isAlphanum || c == '_'

/-- Case-insensitive list prefix: `p` matches the start of `s` after
lower-casing both (regex literal matching under `re.IGNORECASE`). -/
def ciStartsWith : List Char → List Char → Bool
  | [], _ => true
  | _ :: _, [] => false
  | p :: ps, s :: ss => (p.toLower == s.toLower) && ciStartsWith ps ss

/-- Case-insensitive substring occurrence of `p` anywhere in `s`
(regex search for a plain literal under `re.IGNORECASE`). -/
def ciSubstr (p : List Char) : List Char → Bool
  | [] => ciStartsWith p []
  | s@(_ :: rest) => ciStartsWith p s || ciSubstr p rest

/-- The `\b` to the left of a pattern that starts with a word
character: satisfied at the string start or after a non-word char. -/
def boundaryBefore : Option Char → Bool
  | none => true
  | some c => !isWordChar c

/-- The `\b` to the right of a pattern that ends with a word character:
satisfied at the string end or before a non-word char. -/
def boundaryAfter (s : List Char) (n : Nat) : Bool :=
  match s.drop n with
  | [] => true
  | c :: _ => !isWordChar c

/-- `\bP\b` (with `re.IGNORECASE`) matches exactly at the head of `s`,
where `prev` is the character just before `s` inside the full text. -/
def wordHere (p s : List Char) (prev : Option Char) : Bool :=
  boundaryBefore prev && ciStartsWith p s && boundaryAfter s p.length

/-- Search for a whole-word, case-insensitive occurrence of `p`
anywhere in `s`; `prev` is the character before `s` in the full text. -/
def wwSearch (p : List Char) (prev : Option Char) : List Char → Bool
  | [] => false
  | s@(c :: rest) => wordHere p s prev || wwSearch p (some c) rest

/-- The alternatives of `_WRITE_PATTERN` in source order. -/
def WRITE_KEYWORDS : List String :=
  ["INSERT", "UPDATE", "DELETE", "DROP", "ALTER", "CREATE",
   "TRUNCATE", "GRANT", "REVOKE"]

/-- At the head of `s`, try each alternative in order; on success
return the matched slice of `s` (the text `match.group()` reports). -/
def firstKwHere (kws : List String) (s : List Char) (prev : Option Char) :
    Option (List Char) :=
  match kws with
  | [] => none
  | k :: rest =>
    if wordHere k.data s prev then some (s.take k.data.length)
    else firstKwHere rest s prev

/-- Leftmost match of `_WRITE_PATTERN.search`: scan positions left to
right, at each position try the alternatives in order. -/
def findWriteAux (prev : Option Char) : List Char → Option (List Char)
  | [] => none
  | s@(c :: rest) =>
    match firstKwHere WRITE_KEYWORDS s prev with
    | some w => some w
    | none => findWriteAux (some c) rest

/-- `_WRITE_PATTERN.search(sql)`: the matched text, if any. -/
def findWriteMatch (sql : String) : Option String :=
  (findWriteAux none sql.data).map String.mk

/-- `ROLE_TABLES`: role → allowed tables, in source order. -/
def ROLE_TABLES : List (String × List String) :=
  [("ADMIN",
    ["Project", "Trip", "TruckDetails", "Expenses", "CashFlow",
     "product_category", "product", "Quotation", "QuotationItem",
     "ExpensesTableTemplate", "ExpensesColumn", "ExpensesCellValue",
     "CashFlowCustomTable", "CashFlowColumn", "CashFlowCellValue",
     "Billing"]),
   ("ENCODER",
    ["Project", "Expenses", "ExpensesTableTemplate", "ExpensesColumn",
     "ExpensesCellValue", "Quotation", "QuotationItem", "Trip",
     "TruckDetails", "product", "product_category"]),
   ("ACCOUNTANT",
    ["Project", "Expenses", "ExpensesTableTemplate", "ExpensesColumn",
     "ExpensesCellValue", "CashFlow", "CashFlowCustomTable",
     "CashFlowColumn", "CashFlowCellValue", "Quotation",
     "QuotationItem", "Billing"])]

/-- `VALID_ROLES = set(ROLE_TABLES.keys())`, kept as the key list. -/
def VALID_ROLES : List String := ROLE_TABLES.map Prod.fst

/-- Python string `<`: lexicographic comparison by code points. -/
def charListLt : List Char → List Char → Bool
  | [], [] => false
  | [], _ :: _ => true
  | _ :: _, [] => false
  | a :: as, b :: bs =>
    if a.toNat < b.toNat then true
    else if b.toNat < a.toNat then false
    else charListLt as bs

/-- Stable insertion into an ascending list (by code points). -/
def insertSorted (x : String) : List String → List String
  | [] => [x]
  | y :: ys =>
    if charListLt y.data x.data then y :: insertSorted x ys
    else x :: y :: ys

/-- Python `sorted` on strings: ascending by code points. -/
def sortStrings (l : List String) : List String := l.foldr insertSorted []

/-- Set-like deduplication keeping first occurrences. -/
def dedupAux (seen : List String) : List String → List String
  | [] => []
  | x :: xs =>
    if seen.contains x then dedupAux seen xs
    else x :: dedupAux (x :: seen) xs

/-- `ALL_TABLES = sorted(set(t for tables in ROLE_TABLES.values() for t
in tables))`. -/
def ALL_TABLES : List String :=
  sortStrings (dedupAux [] (ROLE_TABLES.map Prod.snd).flatten)

/-- Python whitespace for `str.strip()` (ASCII part). -/
def isSpaceChar (c : Char) : Bool :=
  c == ' ' || c == '\t' || c == '\n' || c == '\r' ||
    c.toNat == 11 || c.toNat == 12

/-- Python `str.strip()`: drop leading and trailing whitespace. -/
def pyStrip (s : String) : String :=
  String.mk (((s.data.dropWhile isSpaceChar).reverse.dropWhile
    isSpaceChar).reverse)

/-- Python `str.upper()` over ASCII. -/
def pyUpper (s : String) : String := String.mk (s.data.map Char.toUpper)

/-- Python `", ".join(...)`. -/
def joinComma : List String → String
  | [] => ""
  | [x] => x
  | x :: xs => x ++ ", " ++ joinComma xs

/-- `validate_role`: strip and upper-case, then check membership;
unknown roles raise `ValueError` (modelled as `Except.error`). -/
def validate_role (role : String) : Except String String :=
  let normalized := pyUpper (pyStrip role)
  if VALID_ROLES.contains normalized then Except.ok normalized
  else Except.error
    ("Role " ++ sQuote ++ role ++ sQuote ++ " is not authorized. Allowed roles: "
      ++ joinComma (sortStrings VALID_ROLES))

/-- `get_tables_for_role`. The lookup cannot miss for a validated role;
the `[]` default is never reached. -/
def get_tables_for_role (role : String) : Except String (List String) :=
  match validate_role role with
  | Except.error e => Except.error e
  | Except.ok r => Except.ok ((ROLE_TABLES.lookup r).getD [])

/-- `get_blocked_tables_for_role = set(ALL_TABLES) - allowed`. The
model keeps the set as the sorted `ALL_TABLES` list filtered in place
(Python set iteration order is unspecified; the model fixes it). -/
def get_blocked_tables_for_role (role : String) : Except String (List String) :=
  match get_tables_for_role role with
  | Except.error e => Except.error e
  | Except.ok allowed =>
    Except.ok (ALL_TABLES.filter (fun t => !(allowed.contains t)))

/-- One blocked-table test of `validate_sql_query`: quoted occurrence
`"T"` or whole-word occurrence `\bT\b`, both under `re.IGNORECASE`
(table names contain only word chars, so `re.escape` is the identity). -/
def tableRefMatch (table : List Char) (sql : List Char) : Bool :=
  ciSubstr ('"' :: table ++ ['"']) sql || wwSearch table none sql

/-- The same test as the spec words it (§4.1): case-SENSITIVE exact
tokens. Modelled from the spec for comparison with `tableRefMatch`;
not part of the source. -/
def csStartsWith : List Char → List Char → Bool
  | [], _ => true
  | _ :: _, [] => false
  | p :: ps, s :: ss => (p == s) && csStartsWith ps ss

/-- Case-sensitive `\bP\b` at the head of `s` (spec-side variant). -/
def csWordHere (p s : List Char) (prev : Option Char) : Bool :=
  boundaryBefore prev && csStartsWith p s && boundaryAfter s p.length

/-- Case-sensitive whole-word search (spec-side variant). -/
def csSearch (p : List Char) (prev : Option Char) : List Char → Bool
  | [] => false
  | s@(c :: rest) => csWordHere p s prev || csSearch p (some c) rest

/-- Case-sensitive substring occurrence (spec-side variant). -/
def csSubstr (p : List Char) : List Char → Bool
  | [] => csStartsWith p []
  | s@(_ :: rest) => csStartsWith p s || csSubstr p rest

/-- Blocked-table test as the spec describes it: case-sensitive quoted
or whole-word occurrence. Modelled from the spec (§4.1 case-sensitivity
sentence); the source uses `re.IGNORECASE` instead. -/
def tableRefMatchCS (table : List Char) (sql : List Char) : Bool :=
  csSubstr ('"' :: table ++ ['"']) sql || csSearch table none sql

/-- The denial message for a write keyword, with `w` the matched text
in its original casing (`match.group()`). -/
def writeDeniedMsg (w : String) : String :=
  "Write operation " ++ sQuote ++ w ++ sQuote ++
    " is not allowed. Only SELECT queries are permitted."

/-- The denial message for a blocked table; `role` is the raw argument
(not normalized), exactly as the source interpolates it. -/
def accessDeniedMsg (role t : String) : String :=
  "Access denied: role " ++ sQuote ++ role ++ sQuote ++ " cannot query table "
    ++ sQuote ++ t ++ sQuote ++ "."

/-- `validate_sql_query(sql, role) -> (is_valid, error_message)`.
Write scan first; only then the role registry is consulted (which may
raise for unknown roles); empty blocked set short-circuits to valid. -/
def validate_sql_query (sql : String) (role : String) :
    Except String (Bool × String) :=
  match findWriteMatch sql with
  | some w => Except.ok (false, writeDeniedMsg w)
  | none =>
    match get_blocked_tables_for_role role with
    | Except.error e => Except.error e
    | Except.ok blocked =>
      if blocked.isEmpty then Except.ok (true, "")
      else
        match blocked.find? (fun t => tableRefMatch t.data sql.data) with
        | some t => Except.ok (false, accessDeniedMsg role t)
        | none => Except.ok (true, "")

/-! ## safe_db.py: metrics recorder and guarded execution wrapper -/

/-- Round a rational to the nearest integer, ties up:
`⌊q + 1/2⌋ = ⌊(2 num + den) / (2 den)⌋` with floor division. -/
def ratRoundHalf (q : ℚ) : ℤ :=
  Int.fdiv (2 * q.num + (q.den : ℤ)) (2 * (q.den : ℤ))

/-- Python `round(x, 1)` over ℚ (Python rounds float ties to even;
this rounds ties up — the difference cannot affect any claim, none of
which constrains tie behaviour). -/
def round1 (q : ℚ) : ℚ := ((ratRoundHalf (10 * q) : ℤ) : ℚ) / 10

/-- `sql[:100] + "..." if len(sql) > 100 else sql`. -/
def preview (sql : String) : String :=
  if 100 < sql.data.length then String.mk (sql.data.take 100) ++ "..."
  else sql

/-- One element of `QueryMetadata.queries`. -/
structure QueryEntry where
  sql_preview : String
  duration_ms : ℚ
  row_count : ℤ
  blocked : Bool
  deriving DecidableEq

/-- `QueryMetadata` state. Python sets are modelled as lists without
duplicates; Python `int` (possibly negative) is ℤ, the count that only
grows from 0 is ℕ. -/
structure QueryMetadata where
  queries : List QueryEntry
  total_time_ms : ℚ
  total_rows : ℤ
  tables_queried : List String
  blocked_count : ℕ
  deriving DecidableEq

/-- `QueryMetadata.__init__`. -/
def initMetrics : QueryMetadata :=
  { queries := [], total_time_ms := 0, total_rows := 0,
    tables_queried := [], blocked_count := 0 }

/-- Set insertion on the list representation. -/
def setInsert (l : List String) (x : String) : List String :=
  if l.contains x then l else l ++ [x]

/-- `set.update`: insert each element of `xs`. -/
def setUnion (l xs : List String) : List String := xs.foldl setInsert l

/-- `QueryMetadata.record`. -/
def QueryMetadata.record (st : QueryMetadata) (sql : String)
    (duration_ms : ℚ) (row_count : ℤ) (tables : List String)
    (blocked : Bool) : QueryMetadata :=
  { queries := st.queries ++
      [{ sql_preview := preview sql, duration_ms := round1 duration_ms,
         row_count := row_count, blocked := blocked }],
    total_time_ms := st.total_time_ms + duration_ms,
    total_rows := st.total_rows + row_count,
    tables_queried := setUnion st.tables_queried tables,
    blocked_count := st.blocked_count + (if blocked then 1 else 0) }

/-- The dictionary returned by `QueryMetadata.to_dict`. -/
structure Summary where
  query_count : ℕ
  total_time_ms : ℚ
  total_rows : ℤ
  tables_queried : List String
  blocked_count : ℕ
  deriving DecidableEq

/-- `QueryMetadata.to_dict`. -/
def QueryMetadata.to_dict (st : QueryMetadata) : Summary :=
  { query_count := st.queries.length,
    total_time_ms := round1 st.total_time_ms,
    total_rows := st.total_rows,
    tables_queried := sortStrings st.tables_queried,
    blocked_count := st.blocked_count }

/-- `QueryMetadata.reset`: every field back to the zero state. -/
def QueryMetadata.reset (_ : QueryMetadata) : QueryMetadata := initMetrics

/-- One call on the recorder, for reasoning about reachable states. -/
inductive MetricsOp where
  | record (sql : String) (duration_ms : ℚ) (row_count : ℤ)
      (tables : List String) (blocked : Bool)
  | reset

/-- Apply one recorder call. -/
def applyOp (st : QueryMetadata) : MetricsOp → QueryMetadata
  | MetricsOp.record sql d r t b => st.record sql d r t b
  | MetricsOp.reset => st.reset

/-- Apply a sequence of recorder calls from a starting state. -/
def applyOps (st : QueryMetadata) (ops : List MetricsOp) : QueryMetadata :=
  ops.foldl applyOp st

/-- `_TABLE_PATTERN` match attempt anchored at the head of `s`:
`(?:FROM|JOIN)\s+"?(\w+)"?`. Returns the captured group and the rest
of the text after the whole match. -/
def matchFromJoinAt (s : List Char) : Option (List Char × List Char) :=
  let afterKw : Option (List Char) :=
    if ciStartsWith "FROM".data s then some (s.drop 4)
    else if ciStartsWith "JOIN".data s then some (s.drop 4)
    else none
  match afterKw with
  | none => none
  | some rest =>
    let ws := rest.takeWhile isSpaceChar
    if ws.isEmpty then none
    else
      let rest1 := rest.drop ws.length
      let body := match rest1 with
        | '"' :: rest2 => rest2
        | _ => rest1
      let word := body.takeWhile isWordChar
      if word.isEmpty then none
      else
        let rest3 := body.drop word.length
        let rest4 := match rest3 with
          | '"' :: t => t
          | t => t
        some (word, rest4)

/-- `_TABLE_PATTERN.findall`: non-overlapping scan, left to right.
The fuel argument (one unit per consumed character) only serves
termination; `fuel = s.length` never runs out. -/
def findTablesAux : Nat → List Char → List String
  | 0, _ => []
  | _, [] => []
  | fuel + 1, s@(_ :: rest) =>
    match matchFromJoinAt s with
    | some (w, rest2) => String.mk w :: findTablesAux fuel rest2
    | none => findTablesAux fuel rest

/-- `set(_TABLE_PATTERN.findall(command))` as a deduplicated list. -/
def extractTables (command : String) : List String :=
  dedupAux [] (findTablesAux command.data.length command.data)

/-- Number of newline characters (`result.count("\n")`). -/
def countNL (s : String) : ℤ :=
  ((s.data.filter (fun c => c == '\n')).length : ℤ)

/-- `SafeSQLDatabase._safe_run`. The underlying `db.run` is the oracle
`dbRun` (its failures propagate unchanged); the elapsed wall-clock time
of the underlying call is the oracle `duration_ms`. Results are
strings (the `str` branch of the source's row-count estimate). -/
def safe_run (role : String) (dbRun : String → Except String String)
    (st : QueryMetadata) (command : String) (duration_ms : ℚ) :
    Except String (String × QueryMetadata) :=
  match validate_sql_query command role with
  | Except.error e => Except.error e
  | Except.ok (is_valid, error_msg) =>
    let tables := extractTables command
    if is_valid = false then
      Except.ok ("BLOCKED: " ++ error_msg, st.record command 0 0 tables true)
    else
      match dbRun command with
      | Except.error e => Except.error e
      | Except.ok result =>
        let row_count : ℤ := max 0 (countNL result)
        Except.ok (result,
          st.record command duration_ms row_count tables false)

/-- The row-count argument of a `record` call is non-negative (every
call site in `_safe_run` passes `0`, `max(0, ...)` or a length). -/
def recordArgsOk : MetricsOp → Bool
  | MetricsOp.record _ _ r _ _ => decide (0 ≤ r)
  | MetricsOp.reset => true

/-- The recorder invariant of §4.3: `queryCount == len(entries)`,
`blockedCount <= queryCount`, `totalRows >= 0`. -/
def MetricsInv (st : QueryMetadata) : Prop :=
  st.to_dict.query_count = st.queries.length ∧
    st.blocked_count ≤ st.to_dict.query_count ∧
    0 ≤ st.to_dict.total_rows

example : findWriteMatch "SELECT * FROM x" = none := by rfl
example : findWriteMatch "delete FROM x" = some "delete" := by rfl
example : get_blocked_tables_for_role "ADMIN" = Except.ok [] := by rfl
example : get_blocked_tables_for_role "ENCODER" =
    Except.ok ["Billing", "CashFlow", "CashFlowCellValue",
               "CashFlowColumn", "CashFlowCustomTable"] := by rfl

/-! ## Supporting lemmas -/

lemma round1_zero : round1 0 = 0 := by
  have h10 : (10 : ℚ) * 0 = 0 := mul_zero 10
  have hr : ratRoundHalf 0 = 0 := by decide
  rw [round1, h10, hr]
  norm_num

lemma ciStartsWith_lower {p s : List Char} (h : ciStartsWith p s = true) :
    (s.take p.length).map Char.toLower = p.map Char.toLower := by
  induction p generalizing s with
  | nil => simp
  | cons a as ih =>
    cases s with
    | nil => simp [ciStartsWith] at h
    | cons b bs =>
      simp only [ciStartsWith, Bool.and_eq_true, beq_iff_eq] at h
      simp [List.take, ih h.2, h.1]

lemma firstKwHere_isSome {kws : List String} {s : List Char}
    {prev : Option Char} {k : String} (hk : k ∈ kws)
    (hw : wordHere k.data s prev = true) :
    (firstKwHere kws s prev).isSome := by
  induction kws with
  | nil => cases hk
  | cons a rest ih =>
    rw [firstKwHere]
    by_cases ha : wordHere a.data s prev = true
    · simp [ha]
    · rcases List.mem_cons.mp hk with rfl | hk2
      · exact absurd hw ha
      · simpa [ha] using ih hk2

lemma firstKwHere_sound {kws : List String} {s : List Char}
    {prev : Option Char} {w : List Char}
    (h : firstKwHere kws s prev = some w) :
    ∃ k ∈ kws, wordHere k.data s prev = true ∧ w = s.take k.data.length := by
  induction kws with
  | nil => simp [firstKwHere] at h
  | cons a rest ih =>
    rw [firstKwHere] at h
    by_cases ha : wordHere a.data s prev = true
    · refine ⟨a, List.mem_cons_self a rest, ha, ?_⟩
      simp [ha] at h
      exact h.symm
    · simp [ha] at h
      obtain ⟨k, hk, hkw, hkt⟩ := ih h
      exact ⟨k, List.mem_cons_of_mem a hk, hkw, hkt⟩

lemma findWriteAux_isSome {k : String} {prev : Option Char}
    {s : List Char} (hk : k ∈ WRITE_KEYWORDS)
    (h : wwSearch k.data prev s = true) : (findWriteAux prev s).isSome := by
  induction s generalizing prev with
  | nil => simp [wwSearch] at h
  | cons c rest ih =>
    rw [wwSearch, Bool.or_eq_true] at h
    rw [findWriteAux]
    cases hf : firstKwHere WRITE_KEYWORDS (c :: rest) prev with
    | some w => simp
    | none =>
      rcases h with hword | htail
      · have := firstKwHere_isSome hk hword
        rw [hf] at this
        simp at this
      · simpa using ih htail

lemma findWriteAux_sound {prev : Option Char} {s w : List Char}
    (h : findWriteAux prev s = some w) :
    ∃ k ∈ WRITE_KEYWORDS,
      w.map Char.toLower = k.data.map Char.toLower ∧
        wwSearch k.data prev s = true := by
  induction s generalizing prev with
  | nil => simp [findWriteAux] at h
  | cons c rest ih =>
    rw [findWriteAux] at h
    cases hf : firstKwHere WRITE_KEYWORDS (c :: rest) prev with
    | some w2 =>
      rw [hf] at h
      obtain rfl : w2 = w := by simpa using h
      obtain ⟨k, hk, hkw, hkt⟩ := firstKwHere_sound hf
      refine ⟨k, hk, ?_, ?_⟩
      · subst hkt
        have hci : ciStartsWith k.data (c :: rest) = true := by
          have := hkw
          rw [wordHere, Bool.and_eq_true, Bool.and_eq_true] at this
          exact this.1.2
        exact ciStartsWith_lower hci
      · rw [wwSearch, Bool.or_eq_true]
        exact Or.inl hkw
    | none =>
      rw [hf] at h
      obtain ⟨k, hk, hkw, hkt⟩ := ih h
      refine ⟨k, hk, hkw, ?_⟩
      rw [wwSearch, Bool.or_eq_true]
      exact Or.inr hkt

lemma find_eq_some_of_unique {α : Type} {p : α → Bool} {l : List α} {a : α}
    (ha : a ∈ l) (hpa : p a = true)
    (huniq : ∀ b ∈ l, p b = true → b = a) : l.find? p = some a := by
  induction l with
  | nil => cases ha
  | cons x xs ih =>
    by_cases hx : p x = true
    · rw [List.find?_cons_of_pos _ hx]
      rw [huniq x (List.mem_cons_self x xs) hx]
    · rw [List.find?_cons_of_neg _ (by simpa using hx)]
      rcases List.mem_cons.mp ha with rfl | ha2
      · exact absurd hpa hx
      · exact ih ha2 (fun b hb hpb => huniq b (List.mem_cons_of_mem x hb) hpb)

lemma validate_write_denied {sql role w : String}
    (h : findWriteMatch sql = some w) :
    validate_sql_query sql role = Except.ok (false, writeDeniedMsg w) := by
  rw [validate_sql_query, h]

lemma validate_table_denied {role T sql : String} {blocked : List String}
    (hb : get_blocked_tables_for_role role = Except.ok blocked)
    (hT : T ∈ blocked)
    (hw : findWriteMatch sql = none)
    (hm : tableRefMatch T.data sql.data = true)
    (honly : ∀ T2 ∈ blocked, tableRefMatch T2.data sql.data = true → T2 = T) :
    validate_sql_query sql role = Except.ok (false, accessDeniedMsg role T) := by
  have hne : blocked.isEmpty = false := by
    cases blocked with
    | nil => cases hT
    | cons x xs => rfl
  have hfind : blocked.find? (fun t => tableRefMatch t.data sql.data) = some T :=
    find_eq_some_of_unique hT hm honly
  rw [validate_sql_query, hw, hb]
  simp [hne, hfind]

lemma writeDeniedMsg_head (w : String) :
    (writeDeniedMsg w).data.head? = some (Char.ofNat 87) := by
  rfl

lemma accessDeniedMsg_head (role t : String) :
    (accessDeniedMsg role t).data.head? = some (Char.ofNat 65) := by
  rfl

lemma writeDeniedMsg_ne_accessDeniedMsg (w role t : String) :
    writeDeniedMsg w ≠ accessDeniedMsg role t := by
  intro h
  have h1 : (writeDeniedMsg w).data.head? = (accessDeniedMsg role t).data.head? := by
    rw [h]
  rw [writeDeniedMsg_head, accessDeniedMsg_head] at h1
  simp at h1

lemma metricsInv_init : MetricsInv initMetrics := by
  refine ⟨rfl, ?_, ?_⟩ <;> simp [initMetrics, QueryMetadata.to_dict]

lemma metricsInv_step {st : QueryMetadata} {op : MetricsOp}
    (h : MetricsInv st) (hop : recordArgsOk op = true) :
    MetricsInv (applyOp st op) := by
  obtain ⟨-, h2, h3⟩ := h
  cases op with
  | record sql d r t b =>
    rw [recordArgsOk, decide_eq_true_eq] at hop
    refine ⟨rfl, ?_, ?_⟩
    · simp only [QueryMetadata.to_dict, applyOp, QueryMetadata.record,
        List.length_append, List.length_cons, List.length_nil] at h2 ⊢
      cases b <;> simp <;> omega
    · simp only [QueryMetadata.to_dict, applyOp, QueryMetadata.record] at h3 ⊢
      exact add_nonneg h3 hop
  | reset =>
    exact ⟨rfl, by simp [applyOp, QueryMetadata.reset, initMetrics,
      QueryMetadata.to_dict], by simp [applyOp, QueryMetadata.reset,
        initMetrics, QueryMetadata.to_dict]⟩

lemma metricsInv_fold {ops : List MetricsOp} {st : QueryMetadata}
    (h : MetricsInv st) (hops : ∀ op ∈ ops, recordArgsOk op = true) :
    MetricsInv (applyOps st ops) := by
  induction ops generalizing st with
  | nil => exact h
  | cons op rest ih =>
    exact ih (metricsInv_step h (hops op (List.mem_cons_self op rest)))
      (fun o ho => hops o (List.mem_cons_of_mem op ho))

/-! ## Claim theorems -/

/-- C1: for every role and every table T in its blocked set, a query
that passes the write-operation scan and references T (quoted or as a
word-boundary token), while no other blocked table of the role is
referenced (only allowed tables may also appear), is denied with the
table-access message naming T. -/
theorem blocked_table_reference_denied (role T sql : String)
    (blocked : List String)
    (hb : get_blocked_tables_for_role role = Except.ok blocked)
    (hT : T ∈ blocked)
    (hw : findWriteMatch sql = none)
    (hm : tableRefMatch T.data sql.data = true)
    (honly : ∀ T2 ∈ blocked, tableRefMatch T2.data sql.data = true → T2 = T) :
    validate_sql_query sql role = Except.ok (false, accessDeniedMsg role T) :=
  validate_table_denied hb hT hw hm honly

/-- C1 witness: ENCODER querying CashFlow next to the allowed Project
is denied with the message naming CashFlow. -/
theorem blocked_table_reference_denied_witness :
    validate_sql_query "SELECT * FROM \"CashFlow\" JOIN \"Project\"" "ENCODER" =
      Except.ok (false, accessDeniedMsg "ENCODER" "CashFlow") :=
  blocked_table_reference_denied "ENCODER" "CashFlow"
    "SELECT * FROM \"CashFlow\" JOIN \"Project\""
    ["Billing", "CashFlow", "CashFlowCellValue", "CashFlowColumn",
     "CashFlowCustomTable"]
    (by rfl) (by decide) (by rfl) (by rfl) (by decide)

/-- C2: for every keyword K of the fixed blocklist and every role, a
query containing K as a whole word in any casing is denied with the
write-operation message; the named word is a blocklisted keyword
occurring in the query, and when K is the only blocklisted keyword
occurring it is K itself (in the casing of its occurrence). -/
theorem write_keyword_denied (K sql role : String)
    (hK : K ∈ WRITE_KEYWORDS)
    (hm : wwSearch K.data none sql.data = true) :
    ∃ w, validate_sql_query sql role = Except.ok (false, writeDeniedMsg w) ∧
      (∃ k ∈ WRITE_KEYWORDS,
        w.data.map Char.toLower = k.data.map Char.toLower ∧
          wwSearch k.data none sql.data = true) ∧
      ((∀ k2 ∈ WRITE_KEYWORDS, wwSearch k2.data none sql.data = true → k2 = K) →
        w.data.map Char.toLower = K.data.map Char.toLower) := by
  have hs : (findWriteAux none sql.data).isSome := findWriteAux_isSome hK hm
  obtain ⟨wl, hwl⟩ := Option.isSome_iff_exists.mp hs
  have hfm : findWriteMatch sql = some (String.mk wl) := by
    rw [findWriteMatch, hwl]
    rfl
  refine ⟨String.mk wl, validate_write_denied hfm, ?_, ?_⟩
  · obtain ⟨k, hk, hlow, hsearch⟩ := findWriteAux_sound hwl
    exact ⟨k, hk, hlow, hsearch⟩
  · intro honly
    obtain ⟨k, hk, hlow, hsearch⟩ := findWriteAux_sound hwl
    rw [honly k hk hsearch] at hlow
    exact hlow

/-- C2 witness: a lower-case `delete` targeting a table ACCOUNTANT is
allowed to read is still denied as a write operation. -/
theorem write_keyword_denied_witness :
    ∃ w, validate_sql_query "delete FROM \"Billing\"" "ACCOUNTANT" =
        Except.ok (false, writeDeniedMsg w) ∧
      (∃ k ∈ WRITE_KEYWORDS,
        w.data.map Char.toLower = k.data.map Char.toLower ∧
          wwSearch k.data none "delete FROM \"Billing\"".data = true) ∧
      ((∀ k2 ∈ WRITE_KEYWORDS,
          wwSearch k2.data none "delete FROM \"Billing\"".data = true →
            k2 = "DELETE") →
        w.data.map Char.toLower = "DELETE".data.map Char.toLower) :=
  write_keyword_denied "DELETE" "delete FROM \"Billing\"" "ACCOUNTANT"
    (by decide) (by rfl)

/-- C3: whenever the write pattern matches, the validator returns the
write-operation denial for the matched keyword — and that message is
never equal to any table-access message, so the write check decides
before the table check for every role. -/
theorem write_check_precedes_table_check (sql role w : String)
    (h : findWriteMatch sql = some w) :
    validate_sql_query sql role = Except.ok (false, writeDeniedMsg w) ∧
      ∀ role2 T, writeDeniedMsg w ≠ accessDeniedMsg role2 T :=
  ⟨validate_write_denied h, fun role2 T =>
    writeDeniedMsg_ne_accessDeniedMsg w role2 T⟩

/-- C3 witness: the spec scenario — ACCOUNTANT deleting from Billing
(a table it may read) is denied as a write operation, not as table
access. -/
theorem write_check_precedes_table_check_witness :
    validate_sql_query "DELETE FROM \"Billing\" WHERE \"id\"=5" "ACCOUNTANT" =
        Except.ok (false, writeDeniedMsg "DELETE") ∧
      ∀ role2 T, writeDeniedMsg "DELETE" ≠ accessDeniedMsg role2 T :=
  write_check_precedes_table_check "DELETE FROM \"Billing\" WHERE \"id\"=5"
    "ACCOUNTANT" "DELETE" (by rfl)

/-- C4: the guarded execute returns the denial as an in-band sentinel
exactly when the validator denies: on denial the result is
`BLOCKED: <reason>` (an `ok` value, no exception), the database oracle
is never consulted, and exactly one entry with the blocked flag, zero
duration and zero rows is appended; on acceptance the result is the
database result, recorded unblocked. -/
theorem denied_query_returned_inband (role cmd : String)
    (db : String → Except String String) (st : QueryMetadata) (dur : ℚ) :
    (∀ msg, validate_sql_query cmd role = Except.ok (false, msg) →
      safe_run role db st cmd dur =
          Except.ok ("BLOCKED: " ++ msg,
            st.record cmd 0 0 (extractTables cmd) true) ∧
        (st.record cmd 0 0 (extractTables cmd) true).queries =
          st.queries ++ [QueryEntry.mk (preview cmd) 0 0 true] ∧
        (st.record cmd 0 0 (extractTables cmd) true).blocked_count =
          st.blocked_count + 1 ∧
        ∀ db2 : String → Except String String,
          safe_run role db2 st cmd dur = safe_run role db st cmd dur) ∧
      ∀ msg, validate_sql_query cmd role = Except.ok (true, msg) →
        safe_run role db st cmd dur =
          (db cmd).map (fun r =>
            (r, st.record cmd dur (max 0 (countNL r)) (extractTables cmd) false)) := by
  constructor
  · intro msg h
    have hrun : ∀ dbx : String → Except String String,
        safe_run role dbx st cmd dur =
          Except.ok ("BLOCKED: " ++ msg,
            st.record cmd 0 0 (extractTables cmd) true) := by
      intro dbx
      rw [safe_run, h]
      simp
    refine ⟨hrun db, ?_, ?_, fun db2 => by rw [hrun db2, hrun db]⟩
    · simp [QueryMetadata.record, round1_zero]
    · simp [QueryMetadata.record]
  · intro msg h
    rw [safe_run, h]
    cases hdb : db cmd with
    | error e => simp [hdb, Except.map]
    | ok r => simp [hdb, Except.map]

/-- C4 witness: ENCODER querying CashFlow through the wrapper gets the
sentinel, the database is not consulted, and one blocked entry with
zero duration and zero rows is appended. -/
theorem denied_query_returned_inband_witness :
    safe_run "ENCODER" (fun _ => Except.ok "row1") initMetrics
          "SELECT * FROM \"CashFlow\"" 7 =
        Except.ok ("BLOCKED: " ++ accessDeniedMsg "ENCODER" "CashFlow",
          initMetrics.record "SELECT * FROM \"CashFlow\"" 0 0
            (extractTables "SELECT * FROM \"CashFlow\"") true) ∧
      (initMetrics.record "SELECT * FROM \"CashFlow\"" 0 0
          (extractTables "SELECT * FROM \"CashFlow\"") true).queries =
        initMetrics.queries ++
          [QueryEntry.mk (preview "SELECT * FROM \"CashFlow\"") 0 0 true] ∧
      (initMetrics.record "SELECT * FROM \"CashFlow\"" 0 0
          (extractTables "SELECT * FROM \"CashFlow\"") true).blocked_count =
        initMetrics.blocked_count + 1 ∧
      ∀ db2 : String → Except String String,
        safe_run "ENCODER" db2 initMetrics "SELECT * FROM \"CashFlow\"" 7 =
          safe_run "ENCODER" (fun _ => Except.ok "row1") initMetrics
            "SELECT * FROM \"CashFlow\"" 7 :=
  (denied_query_returned_inband "ENCODER" "SELECT * FROM \"CashFlow\""
      (fun _ => Except.ok "row1") initMetrics 7).1
    (accessDeniedMsg "ENCODER" "CashFlow") (by rfl)

/-- C5 counterexample: the claim says blocked-table matching is
case-sensitive, so ENCODER's `SELECT * FROM cashflow` — where the
registered name CashFlow occurs only in a different casing (the
case-sensitive matcher finds nothing) — should not be denied for table
access; the code matches under IGNORECASE and denies it. -/
theorem table_case_matching_cex :
    tableRefMatchCS "CashFlow".data "SELECT * FROM cashflow".data = false ∧
      validate_sql_query "SELECT * FROM cashflow" "ENCODER" =
        Except.ok (false, accessDeniedMsg "ENCODER" "CashFlow") :=
  ⟨by rfl, by rfl⟩

/-- C5 (amended): blocked-table matching is case-insensitive — a query
referencing a blocked table T only in a casing different from the
registered name (exact-case matching fails) is still denied for table
access, naming T. -/
theorem table_matching_case_insensitive (role T sql : String)
    (blocked : List String)
    (hb : get_blocked_tables_for_role role = Except.ok blocked)
    (hT : T ∈ blocked)
    (hw : findWriteMatch sql = none)
    (hcs : tableRefMatchCS T.data sql.data = false)
    (hm : tableRefMatch T.data sql.data = true)
    (honly : ∀ T2 ∈ blocked, tableRefMatch T2.data sql.data = true → T2 = T) :
    validate_sql_query sql role = Except.ok (false, accessDeniedMsg role T) :=
  validate_table_denied hb hT hw hm honly

/-- C5 witness: the amended claim at the counterexample input. -/
theorem table_matching_case_insensitive_witness :
    validate_sql_query "SELECT * FROM cashflow" "ENCODER" =
      Except.ok (false, accessDeniedMsg "ENCODER" "CashFlow") :=
  table_matching_case_insensitive "ENCODER" "CashFlow"
    "SELECT * FROM cashflow"
    ["Billing", "CashFlow", "CashFlowCellValue", "CashFlowColumn",
     "CashFlowCustomTable"]
    (by rfl) (by decide) (by rfl) (by rfl) (by rfl) (by decide)

/-- C6: ADMIN's blocked set is empty, and every role with an empty
blocked set has all queries that pass the write scan allowed, with no
table scan performed, whatever table names appear in the query. -/
theorem empty_blocklist_short_circuits :
    get_blocked_tables_for_role "ADMIN" = Except.ok [] ∧
      ∀ role sql, get_blocked_tables_for_role role = Except.ok [] →
        findWriteMatch sql = none →
        validate_sql_query sql role = Except.ok (true, "") := by
  refine ⟨by rfl, fun role sql hb hw => ?_⟩
  rw [validate_sql_query, hw, hb]
  rfl

/-- C6 witness: ADMIN reading CashFlow and Billing is allowed. -/
theorem empty_blocklist_short_circuits_witness :
    validate_sql_query "SELECT * FROM \"CashFlow\" JOIN Billing" "ADMIN" =
      Except.ok (true, "") :=
  empty_blocklist_short_circuits.2 "ADMIN"
    "SELECT * FROM \"CashFlow\" JOIN Billing" (by rfl) (by rfl)

/-- C7 counterexample: `record` accepts any Python int as row count,
so one record call with row count -1 reaches a state with negative
totalRows, violating the claimed invariant for arbitrary record
sequences. -/
theorem metrics_invariant_cex :
    ¬ MetricsInv (applyOps initMetrics
      [MetricsOp.record "q" 0 (-1) [] false]) := by
  intro h
  have h3 := h.2.2
  simp [applyOps, applyOp, QueryMetadata.record, QueryMetadata.to_dict,
    initMetrics] at h3

/-- C7 (amended): every state reachable from the initial recorder
state by record and reset calls whose row-count arguments are
non-negative (as at every call site of the wrapper) satisfies
queryCount = number of entries, blockedCount ≤ queryCount and
totalRows ≥ 0. -/
theorem metrics_invariant_reachable (ops : List MetricsOp)
    (h : ∀ op ∈ ops, recordArgsOk op = true) :
    MetricsInv (applyOps initMetrics ops) :=
  metricsInv_fold metricsInv_init h

/-- C7 witness: a concrete record/reset/record sequence. -/
theorem metrics_invariant_reachable_witness :
    (∀ op ∈ [MetricsOp.record "a" 2 3 ["Trip"] true, MetricsOp.reset,
        MetricsOp.record "b" 0 0 [] false], recordArgsOk op = true) ∧
      MetricsInv (applyOps initMetrics
        [MetricsOp.record "a" 2 3 ["Trip"] true, MetricsOp.reset,
         MetricsOp.record "b" 0 0 [] false]) :=
  ⟨by decide, metrics_invariant_reachable _ (by decide)⟩

/-- C8: after any sequence of record calls followed by reset, the
snapshot is the zero state: no entries, zero totals, no tables. -/
theorem reset_zeroes_snapshot
    (args : List (String × ℚ × ℤ × List String × Bool)) :
    (QueryMetadata.reset (args.foldl
        (fun st a => st.record a.1 a.2.1 a.2.2.1 a.2.2.2.1 a.2.2.2.2)
        initMetrics)).to_dict =
      Summary.mk 0 0 0 [] 0 := by
  rw [QueryMetadata.reset]
  simp [QueryMetadata.to_dict, initMetrics, round1_zero, sortStrings]

/-- C9: the validator is a pure function of the query text and role:
identical inputs give identical outcomes (decision and reason), with
no state read or written and no database access in its definition. -/
theorem validator_deterministic (sql1 role1 sql2 role2 : String)
    (hs : sql1 = sql2) (hr : role1 = role2) :
    validate_sql_query sql1 role1 = validate_sql_query sql2 role2 := by
  rw [hs, hr]

/-- C9 witness: two calls on the same concrete input coincide. -/
theorem validator_deterministic_witness :
    validate_sql_query "SELECT 1" "ADMIN" =
      validate_sql_query "SELECT 1" "ADMIN" :=
  validator_deterministic "SELECT 1" "ADMIN" "SELECT 1" "ADMIN" rfl rfl

/-- C10: the write scan runs before the role registry is consulted:
for every role string, known or not, a query matched by the write
pattern is denied in-band (an ok value), and the validator can raise
(return an error) only on queries the write scan does not match. -/
theorem write_scan_precedes_role_lookup :
    (∀ sql role w, findWriteMatch sql = some w →
      validate_sql_query sql role = Except.ok (false, writeDeniedMsg w)) ∧
      ∀ sql role e, validate_sql_query sql role = Except.error e →
        findWriteMatch sql = none := by
  refine ⟨fun sql role w h => validate_write_denied h,
    fun sql role e h => ?_⟩
  cases hf : findWriteMatch sql with
  | none => rfl
  | some w =>
    rw [validate_write_denied hf] at h
    cases h

/-- C10 witness: an unregistered role issuing DROP gets the in-band
write denial instead of an UnknownRole failure. -/
theorem write_scan_precedes_role_lookup_witness :
    validate_sql_query "DROP TABLE x" "HACKER" =
      Except.ok (false, writeDeniedMsg "DROP") :=
  write_scan_precedes_role_lookup.1 "DROP TABLE x" "HACKER" "DROP" (by rfl)
